import Mathlib

/-!
Verification of the split-factor flotation circuit simulator
(`splitfactor/core/equipos.py`, `splitfactor/core/io.py`,
`splitfactor/core/simulador.py`).

The embedding is shallow: Python floats become rationals (`ℚ`), the mutable
`Dict[int, Flujo]` becomes a `FlujosDict` (a key list plus a total valuation),
and each in-place mutation of the Python code becomes one functional update,
in the same order as the source, so that aliasing between flow ids is
reproduced faithfully.  `np.random.uniform(lo, hi)` is modelled as
`lo + u * (hi - lo)` for a caller-supplied stream `u` of raw draws, and the
pandas steps of `simular_montecarlo` (row table construction and the
`df[df['ley_concentrado'] >= m]` filters, which raise `KeyError` on a
column-less empty frame) are modelled by `aplicarFiltros`.
-/

set_option autoImplicit false

/-- `Flujo` from `equipos.py`: a material flow with mass, grade (`ley`, %)
and fine content. -/
structure Flujo where
  id : Int
  nombre : String
  masa : ℚ
  ley : ℚ
  contenido_fino : ℚ
  deriving Repr, DecidableEq

/-- `Flujo.actualizar_contenido_fino`: `self.contenido_fino = self.masa * self.ley / 100`. -/
def Flujo.actualizar_contenido_fino (f : Flujo) : Flujo :=
  { f with contenido_fino := f.masa * f.ley / 100 }

/-- `Flujo.actualizar_ley`: grade from mass and fine content, 0 when mass is
not positive. -/
def Flujo.actualizar_ley (f : Flujo) : Flujo :=
  { f with ley := if f.masa > 0 then f.contenido_fino / f.masa * 100 else 0 }

/-- The two concrete `Equipo` subclasses of `equipos.py`. -/
inductive TipoEquipo where
  | celda : TipoEquipo
  | suma : TipoEquipo
  deriving Repr, DecidableEq

/-- `Equipo` (the subclass dispatch of the source becomes the `tipo` tag). -/
structure Equipo where
  nombre : String
  flujos_entrada : List Int
  flujos_salida : List Int
  split_factor : List ℚ
  tipo : TipoEquipo
  deriving Repr, DecidableEq

/-- The Python dict `flujos : Dict[int, Flujo]`: its key set (in insertion
order) plus a total valuation of every id. -/
@[ext]
structure FlujosDict where
  keys : List Int
  val : Int → Flujo

/-- One in-place mutation `flujos[i] = f` of the Python dict. -/
def FlujosDict.set (d : FlujosDict) (i : Int) (f : Flujo) : FlujosDict :=
  { d with val := fun j => if j = i then f else d.val j }

@[simp]
theorem FlujosDict.set_keys (d : FlujosDict) (i : Int) (f : Flujo) :
    (d.set i f).keys = d.keys := rfl

@[simp]
theorem FlujosDict.set_val_eq (d : FlujosDict) (i : Int) (f : Flujo) :
    (d.set i f).val i = f := by
  simp [FlujosDict.set]

theorem FlujosDict.set_val_ne (d : FlujosDict) (i : Int) (f : Flujo) {j : Int}
    (h : j ≠ i) : (d.set i f).val j = d.val j := by
  simp [FlujosDict.set, h]

/-- `Celda.calcular`: re-derives the input's fine content, then writes
concentrate and reject (mass split, fine split, then grade derivation), in
exactly the statement order of the source.  A celda whose entrada list is
empty or whose salida list has fewer than two ids would raise in Python
before writing; it is modelled as a no-op. -/
def Equipo.calcularCelda (e : Equipo) (d : FlujosDict) : FlujosDict :=
  match e.flujos_entrada, e.flujos_salida with
  | eid :: _, cid :: rid :: _ =>
    let d1 := d.set eid ((d.val eid).actualizar_contenido_fino)
    let sp_masa := e.split_factor.getD 0 0
    let sp_cuf := e.split_factor.getD 1 0
    let d2 := d1.set cid { d1.val cid with masa := (d1.val eid).masa * sp_masa }
    let d3 := d2.set rid { d2.val rid with masa := (d2.val eid).masa * (1 - sp_masa) }
    let d4 := d3.set cid
      { d3.val cid with contenido_fino := (d3.val eid).contenido_fino * sp_cuf }
    let d5 := d4.set rid
      { d4.val rid with contenido_fino := (d4.val eid).contenido_fino * (1 - sp_cuf) }
    let d6 := d5.set cid ((d5.val cid).actualizar_ley)
    d6.set rid ((d6.val rid).actualizar_ley)
  | _, _ => d

/-- One accumulation step of `Suma.calcular`'s loop over the entrada ids. -/
def sumaPaso (sid : Int) (dc : FlujosDict) (i : Int) : FlujosDict :=
  dc.set sid
    { dc.val sid with
      masa := (dc.val sid).masa + (dc.val i).masa,
      contenido_fino := (dc.val sid).contenido_fino + (dc.val i).contenido_fino }

/-- `Suma.calcular`: zero the salida flow, accumulate every entrada, then
derive the grade.  A suma without a salida id is modelled as a no-op. -/
def Equipo.calcularSuma (e : Equipo) (d : FlujosDict) : FlujosDict :=
  match e.flujos_salida with
  | sid :: _ =>
    let d1 := d.set sid { d.val sid with masa := 0, contenido_fino := 0 }
    let d2 := e.flujos_entrada.foldl (sumaPaso sid) d1
    d2.set sid ((d2.val sid).actualizar_ley)
  | [] => d

/-- `Equipo.calcular` dispatch. -/
def Equipo.calcular (e : Equipo) (d : FlujosDict) : FlujosDict :=
  match e.tipo with
  | .celda => e.calcularCelda d
  | .suma => e.calcularSuma d

/-- The flow ids whose `contenido_fino` a node rewrites on its *input* side:
a well-formed celda re-derives its first entrada, a suma touches none. -/
def Equipo.touchedFino (e : Equipo) : List Int :=
  match e.tipo, e.flujos_entrada, e.flujos_salida with
  | .celda, eid :: _, _ :: _ :: _ => [eid]
  | _, _, _ => []

/-- All entrada ids of a node list (with repetitions). -/
def allInputs (l : List Equipo) : List Int :=
  l.foldr (fun e acc => e.flujos_entrada ++ acc) []

/-- All salida ids of a node list (with repetitions). -/
def allOutputs (l : List Equipo) : List Int :=
  l.foldr (fun e acc => e.flujos_salida ++ acc) []

/-- `identificar_flujos_globales`: circuit feed flows
(`entradas - salidas`). -/
def fEntrada (eqs : List Equipo) : List Int :=
  ((allInputs eqs).dedup).filter (fun id => id ∉ allOutputs eqs)

/-- `identificar_flujos_globales`: global salida flows
(`salidas - entradas`). -/
def fSalida (eqs : List Equipo) : List Int :=
  ((allOutputs eqs).dedup).filter (fun id => id ∉ allInputs eqs)

/-- `identificar_flujos_globales`: final concentrate flows
(`salida - relaves`). -/
def fSalidaConc (eqs : List Equipo) (rel : List Int) : List Int :=
  (fSalida eqs).filter (fun id => id ∉ rel)

/-- Reference feed id used by `_calcular_resultados`
(`list(self.f_entrada)[0]`). -/
def idAlimDe (eqs : List Equipo) : Int :=
  (fEntrada eqs).headI

/-- `sum(self.flujos[i].masa for i in self.f_salida_conc)`. -/
def masaConcDe (eqs : List Equipo) (rel : List Int) (d : FlujosDict) : ℚ :=
  ((fSalidaConc eqs rel).map (fun i => (d.val i).masa)).sum

/-- `sum(self.flujos[i].contenido_fino for i in self.f_salida_conc)`. -/
def cufConcDe (eqs : List Equipo) (rel : List Int) (d : FlujosDict) : ℚ :=
  ((fSalidaConc eqs rel).map (fun i => (d.val i).contenido_fino)).sum

/-- The result record returned by `Simulador._calcular_resultados`. -/
structure Resultados where
  recuperacion : ℚ
  mass_pull : ℚ
  ley_concentrado : ℚ
  razon_enriquecimiento : ℚ
  error_masa : ℚ
  error_cuf : ℚ
  flujos : List (Int × ℚ × ℚ)
  deriving Repr, DecidableEq

/-- `Simulador._calcular_resultados`. -/
def calcResultados (eqs : List Equipo) (rel : List Int) (d : FlujosDict) : Resultados :=
  let alim := d.val (idAlimDe eqs)
  let masa_conc := masaConcDe eqs rel d
  let cuf_conc := cufConcDe eqs rel d
  let recuperacion := if alim.contenido_fino > 0 then cuf_conc / alim.contenido_fino * 100 else 0
  let mass_pull := if alim.masa > 0 then masa_conc / alim.masa * 100 else 0
  let ley_conc := if masa_conc > 0 then cuf_conc / masa_conc * 100 else 0
  let razon := if mass_pull > 0 then recuperacion / mass_pull else 0
  let masa_salida := ((fSalida eqs).map (fun i => (d.val i).masa)).sum
  let cuf_salida := ((fSalida eqs).map (fun i => (d.val i).contenido_fino)).sum
  { recuperacion := recuperacion
    mass_pull := mass_pull
    ley_concentrado := ley_conc
    razon_enriquecimiento := razon
    error_masa := alim.masa - masa_salida
    error_cuf := alim.contenido_fino - cuf_salida
    flujos := d.keys.map (fun k => (k, (d.val k).masa, (d.val k).ley)) }

/-- `Simulador`: the node collection (dict values in insertion order), the
flow dict, the declared relave ids and the pass count. -/
structure Simulador where
  equipos : List Equipo
  flujos : FlujosDict
  flujos_relave : List Int
  iteraciones_convergencia : Nat

/-- The default of the `iteraciones_convergencia` constructor argument. -/
def iteracionesPorDefecto : Nat := 100

/-- `Simulador.__init__` with the default pass count. -/
def Simulador.nuevo (eqs : List Equipo) (d : FlujosDict) (rel : List Int) : Simulador :=
  ⟨eqs, d, rel, iteracionesPorDefecto⟩

/-- `Simulador.establecer_alimentacion`: sets mass and grade and re-derives
fine content, but only when the id is a known flow. -/
def Simulador.establecer_alimentacion (s : Simulador) (id_flujo : Int)
    (masa ley : ℚ) : Simulador :=
  if id_flujo ∈ s.flujos.keys then
    { s with
      flujos := s.flujos.set id_flujo
        (Flujo.actualizar_contenido_fino
          { s.flujos.val id_flujo with masa := masa, ley := ley }) }
  else s

/-- Processing a node list once, in order (`for equipo in self.equipos.values()`). -/
def runList (l : List Equipo) (d : FlujosDict) : FlujosDict :=
  l.foldl (fun dc e => e.calcular dc) d

/-- `Simulador.ejecutar_iteracion`: one full pass over every node. -/
def ejecutarIteracion (eqs : List Equipo) (d : FlujosDict) : FlujosDict :=
  runList eqs d

/-- The flow state after `simular`'s loop
(`for _ in range(self.iteraciones_convergencia): self.ejecutar_iteracion()`). -/
def Simulador.simularFlujos (s : Simulador) : FlujosDict :=
  (List.range s.iteraciones_convergencia).foldl
    (fun d _ => ejecutarIteracion s.equipos d) s.flujos

/-- `Simulador.simular`: the fixed-count loop followed by
`_calcular_resultados`. -/
def Simulador.simular (s : Simulador) : Resultados :=
  calcResultados s.equipos s.flujos_relave s.simularFlujos

/-- `ConfiguracionMC` from `simulador.py`; the two sampling ranges of one
target node (`rangos[eq]['masa']`, `rangos[eq]['cuf']`) are stored side by
side. -/
structure ConfiguracionMC where
  equipos_objetivo : List String
  rangos : List (String × (ℚ × ℚ) × (ℚ × ℚ))
  n_iteraciones : Nat
  ley_min : Option ℚ
  ley_max : Option ℚ

/-- `config.rangos[nombre]` (`none` is Python's `KeyError`). -/
def lookupRangos (rangos : List (String × (ℚ × ℚ) × (ℚ × ℚ))) (nm : String) :
    Option ((ℚ × ℚ) × (ℚ × ℚ)) :=
  (rangos.find? (fun p => p.1 == nm)).map (fun p => p.2)

/-- `np.random.uniform(lo, hi)` for the k-th raw draw of the stream `rng`. -/
def uniformDraw (rng : Nat → ℚ) (k : Nat) (lo hi : ℚ) : ℚ :=
  lo + rng k * (hi - lo)

/-- `equipos_mc[nombre].split_factor = [sp_masa, sp_cuf]`. -/
def setSplitFactor (eqs : List Equipo) (nm : String) (sp : List ℚ) : List Equipo :=
  eqs.map (fun e => if e.nombre = nm then { e with split_factor := sp } else e)

/-- `nombre_eq in equipos_mc`. -/
def contieneEquipo (eqs : List Equipo) (nm : String) : Bool :=
  eqs.any (fun e => e.nombre == nm)

/-- The sampling loop of one Monte Carlo trial: for each target name present
in the circuit draw `sp_masa` and `sp_cuf` and install them; a missing range
entry for a present target is Python's `KeyError` (a configuration error that
propagates, since the access sits outside the `try`). -/
def sampleSplits (rangos : List (String × (ℚ × ℚ) × (ℚ × ℚ))) (rng : Nat → ℚ) :
    List Equipo → List String → List (String × ℚ) → Nat →
    Except String (List Equipo × List (String × ℚ) × Nat)
  | eqs, [], acc, k => .ok (eqs, acc, k)
  | eqs, nm :: rest, acc, k =>
    if contieneEquipo eqs nm then
      match lookupRangos rangos nm with
      | none => .error ("KeyError: " ++ nm)
      | some ((mlo, mhi), clo, chi) =>
        let sp_masa := uniformDraw rng k mlo mhi
        let sp_cuf := uniformDraw rng (k + 1) clo chi
        sampleSplits rangos rng (setSplitFactor eqs nm [sp_masa, sp_cuf]) rest
          (acc ++ [(nm ++ "_sp_masa", sp_masa), (nm ++ "_sp_cuf", sp_cuf)]) (k + 2)
    else
      sampleSplits rangos rng eqs rest acc k

/-- Applying the `alimentacion` mapping inside a trial (same guarded update
as `establecer_alimentacion`, done on the cloned dict). -/
def applyAlim (alim : List (Int × ℚ × ℚ)) (d : FlujosDict) : FlujosDict :=
  alim.foldl
    (fun dc t =>
      if t.1 ∈ dc.keys then
        dc.set t.1
          (Flujo.actualizar_contenido_fino
            { dc.val t.1 with masa := t.2.1, ley := t.2.2 })
      else dc) d

/-- One row of the Monte Carlo result table. -/
structure Fila where
  iteracion : Nat
  recuperacion : ℚ
  mass_pull : ℚ
  ley_concentrado : ℚ
  razon_enriquecimiento : ℚ
  split_info : List (String × ℚ)
  flujos : List (Int × ℚ × ℚ)
  deriving Repr, DecidableEq

/-- One Monte Carlo trial (`simular_montecarlo`'s loop body): clone, apply
the feed, sample splits, solve, and keep the row only when every flow grade
is below the sanity ceiling 36. -/
def mcTrial (sim : Simulador) (cfg : ConfiguracionMC) (alim : List (Int × ℚ × ℚ))
    (rng : Nat → ℚ) (i : Nat) (k : Nat) : Except String (Option Fila × Nat) :=
  let flujos_mc := applyAlim alim sim.flujos
  match sampleSplits cfg.rangos rng sim.equipos cfg.equipos_objetivo [] k with
  | .error e => .error e
  | .ok (equipos_mc, split_info, k1) =>
    let sim_temp : Simulador :=
      ⟨equipos_mc, flujos_mc, sim.flujos_relave, sim.iteraciones_convergencia⟩
    let resultado := sim_temp.simular
    if resultado.flujos.all (fun t => t.2.2 < 36) then
      .ok (some
        { iteracion := i
          recuperacion := resultado.recuperacion
          mass_pull := resultado.mass_pull
          ley_concentrado := resultado.ley_concentrado
          razon_enriquecimiento := resultado.razon_enriquecimiento
          split_info := split_info
          flujos := resultado.flujos }, k1)
    else
      .ok (none, k1)

/-- The trial loop, threading the raw-draw counter. -/
def mcAux (sim : Simulador) (cfg : ConfiguracionMC) (alim : List (Int × ℚ × ℚ))
    (rng : Nat → ℚ) : List Nat → Nat → Except String (List Fila × Nat)
  | [], k => .ok ([], k)
  | i :: rest, k =>
    match mcTrial sim cfg alim rng i k with
    | .error e => .error e
    | .ok (row, k1) =>
      match mcAux sim cfg alim rng rest k1 with
      | .error e => .error e
      | .ok (tail, k2) =>
        .ok ((match row with | some f => f :: tail | none => tail), k2)

/-- The pandas filter stage: `pd.DataFrame(resultados)` followed by the
optional `>= ley_min` and `<= ley_max` selections.  When `resultados` is
empty the frame has no columns, so selecting `ley_concentrado` raises
`KeyError` whenever either bound is set. -/
def aplicarFiltros (lmin lmax : Option ℚ) (resultados : List Fila) :
    Except String (List Fila) :=
  match lmin, lmax with
  | none, none => .ok resultados
  | _, _ =>
    if resultados.isEmpty then .error "KeyError: ley_concentrado"
    else
      let r1 := match lmin with
        | none => resultados
        | some m => resultados.filter (fun f => m ≤ f.ley_concentrado)
      let r2 := match lmax with
        | none => r1
        | some m => r1.filter (fun f => f.ley_concentrado ≤ m)
      .ok r2

/-- `Simulador.simular_montecarlo`: run the trial loop and then the pandas
filter stage (an error from either propagates to the caller). -/
def Simulador.simular_montecarlo (sim : Simulador) (cfg : ConfiguracionMC)
    (alim : List (Int × ℚ × ℚ)) (rng : Nat → ℚ) : Except String (List Fila) :=
  (mcAux sim cfg alim rng (List.range cfg.n_iteraciones) 0).bind
    (fun p => aplicarFiltros cfg.ley_min cfg.ley_max p.1)

/-- `True` exactly on `Except.ok` (observable success of a run). -/
def esOk {α : Type} (r : Except String α) : Bool :=
  match r with
  | .ok _ => true
  | .error _ => false

/-! ### Well-formed nodes, acyclic orderings, feed consistency -/

/-- A node with the arity the spec gives it: a celda has exactly one entrada
and two distinct salidas, a suma has exactly one salida. -/
def Equipo.bienFormadoB (e : Equipo) : Bool :=
  match e.tipo with
  | .celda =>
    match e.flujos_entrada with
    | [_] =>
      match e.flujos_salida with
      | [c, r] => c != r
      | _ => false
    | _ => false
  | .suma =>
    match e.flujos_salida with
    | [_] => true
    | _ => false

def bienFormado (l : List Equipo) : Bool := l.all Equipo.bienFormadoB

/-- No recycle stream with respect to the recompute ordering: no flow is an
output of a node and an input of that node or of an earlier one. -/
def sinReciclo : List Equipo → Bool
  | [] => true
  | e :: rest =>
    (e.flujos_entrada.all (fun id => decide (id ∉ allOutputs (e :: rest))))
      && sinReciclo rest

/-- The `Flujo` invariant `contenido_fino = masa * ley / 100`
(what `establecer_alimentacion` leaves behind, and what the
zero-initialized flows of `io.py` satisfy). -/
def Consistente (f : Flujo) : Prop :=
  f.contenido_fino = f.masa * f.ley / 100

/-- Every feed flow of the circuit (consumed but produced by no node) is in
the consistent state that applying the feed settings produces. -/
def feedConsistent (l : List Equipo) (d : FlujosDict) : Prop :=
  ∀ id ∈ allInputs l, id ∉ allOutputs l → Consistente (d.val id)

/-- Agreement of two states on the fields that no node operation ever
writes (`nombre` and `id`). -/
def MetaEq (X Y : FlujosDict) : Prop :=
  ∀ j : Int, ((X.val j).nombre = (Y.val j).nombre) ∧ ((X.val j).id = (Y.val j).id)

/-! ### Decidability instances for the circuit-level hypotheses -/

instance (f : Flujo) : Decidable (Consistente f) :=
  inferInstanceAs (Decidable (f.contenido_fino = f.masa * f.ley / 100))

instance (l : List Equipo) (d : FlujosDict) : Decidable (feedConsistent l d) :=
  inferInstanceAs (Decidable (∀ id ∈ allInputs l, id ∉ allOutputs l → Consistente (d.val id)))

/-! ### Concrete circuits used as counterexamples and witnesses -/

def celdaC1 : Equipo := ⟨"C", [1], [2, 3], [1/2, 1/2], .celda⟩

def dC1 : FlujosDict :=
  ⟨[1, 2, 3], fun j => if j = 1 then ⟨1, "", 100, 2, 0⟩ else ⟨j, "", 0, 0, 0⟩⟩

def dC3 : FlujosDict :=
  ⟨[1, 2, 3], fun j => if j = 1 then ⟨1, "alim", 100, 3/2, 3/2⟩ else ⟨j, "", 0, 0, 0⟩⟩

def eqsC2 : List Equipo := [⟨"C", [1], [2, 3], [1/10, 3/4], .celda⟩]

def dC2 : FlujosDict := ⟨[1, 2, 3], fun j => ⟨j, "", 0, 0, 0⟩⟩

def simC2 : Simulador :=
  (Simulador.nuevo eqsC2 dC2 [3]).establecer_alimentacion 1 100 (3/2)

def eqsC5 : List Equipo :=
  [⟨"A", [1], [2, 3], [1/10, 3/4], .celda⟩, ⟨"B", [3], [4, 5], [1/5, 1/2], .celda⟩]

def dC5 : FlujosDict :=
  ⟨[1, 2, 3, 4, 5], fun j => if j = 1 then ⟨1, "", 100, 2, 2⟩ else ⟨j, "", 0, 0, 0⟩⟩

def eqsC6 : List Equipo := [⟨"C", [1], [2, 3], [1/10, 3/4], .celda⟩]

def dC6 : FlujosDict := ⟨[1, 2, 3], fun j => ⟨j, "", 0, 0, 0⟩⟩

def simC10 : Simulador :=
  Simulador.nuevo [⟨"C", [1], [2, 3], [1/2, 1/2], .celda⟩]
    ⟨[1, 2, 3], fun j => ⟨j, "", 0, 0, 0⟩⟩ [3]

def eqsC7 : List Equipo := [⟨"A", [1], [2, 3], [1/10, 3/4], .celda⟩]

def dC7 : FlujosDict := ⟨[1, 2, 3], fun j => ⟨j, "", 0, 0, 0⟩⟩

def simC7 : Simulador := ⟨eqsC7, dC7, [3], 1⟩

def cfgC7 : ConfiguracionMC := ⟨["Fantasma"], [], 1, none, none⟩

def rngC7 : Nat → ℚ := fun _ => 0

def eqsC8 : List Equipo := [⟨"A", [1], [2, 3], [1/10, 3/4], .celda⟩]

def dC8 : FlujosDict := ⟨[1, 2, 3], fun j => ⟨j, "", 0, 0, 0⟩⟩

def simC8 : Simulador := ⟨eqsC8, dC8, [3], 1⟩

def cfgC8 : ConfiguracionMC := ⟨[], [], 1, none, none⟩

def alimC8 : List (Int × ℚ × ℚ) := [(1, 100, 50)]

def rngC8 : Nat → ℚ := fun _ => 0

def eqsC9 : List Equipo := [⟨"A", [1], [2, 3], [1/10, 3/4], .celda⟩]

def dC9 : FlujosDict := ⟨[1, 2, 3], fun j => ⟨j, "", 0, 0, 0⟩⟩

def simC9 : Simulador := ⟨eqsC9, dC9, [3], 1⟩

def cfgC9 : ConfiguracionMC := ⟨[], [], 1, some 20, none⟩

def alimC9 : List (Int × ℚ × ℚ) := [(1, 100, 50)]

def rngC9 : Nat → ℚ := fun _ => 0

/-! ### Pointwise characterization of the node operations -/

theorem Flujo.update_fino_self (f : Flujo) {x : ℚ} (h : f.contenido_fino = x) :
    { f with contenido_fino := x } = f := by
  cases f
  simp only at h
  simp [h]

theorem Flujo.actualizar_ley_congr {f g : Flujo} (h1 : f.masa = g.masa)
    (h2 : f.contenido_fino = g.contenido_fino) (h3 : f.nombre = g.nombre)
    (h4 : f.id = g.id) : f.actualizar_ley = g.actualizar_ley := by
  cases f
  cases g
  simp only at h1 h2 h3 h4
  simp [Flujo.actualizar_ley, h1, h2, h3, h4]

theorem celda_val_conc (nm : String) (eid cid rid : Int) (tl tl2 : List Int)
    (sf : List ℚ) (d : FlujosDict) (hce : cid ≠ eid) (hre : rid ≠ eid)
    (hcr : cid ≠ rid) :
    ((Equipo.mk nm (eid :: tl) (cid :: rid :: tl2) sf .celda).calcular d).val cid =
      Flujo.actualizar_ley
        { d.val cid with
          masa := (d.val eid).masa * sf.getD 0 0,
          contenido_fino := (d.val eid).masa * (d.val eid).ley / 100 * sf.getD 1 0 } := by
  simp [Equipo.calcular, Equipo.calcularCelda, FlujosDict.set,
    Flujo.actualizar_contenido_fino, hce, hre, hcr, Ne.symm hce, Ne.symm hre, Ne.symm hcr]

theorem celda_val_rel (nm : String) (eid cid rid : Int) (tl tl2 : List Int)
    (sf : List ℚ) (d : FlujosDict) (hce : cid ≠ eid) (hre : rid ≠ eid)
    (hcr : cid ≠ rid) :
    ((Equipo.mk nm (eid :: tl) (cid :: rid :: tl2) sf .celda).calcular d).val rid =
      Flujo.actualizar_ley
        { d.val rid with
          masa := (d.val eid).masa * (1 - sf.getD 0 0),
          contenido_fino := (d.val eid).masa * (d.val eid).ley / 100 * (1 - sf.getD 1 0) } := by
  simp [Equipo.calcular, Equipo.calcularCelda, FlujosDict.set,
    Flujo.actualizar_contenido_fino, hce, hre, hcr, Ne.symm hce, Ne.symm hre, Ne.symm hcr]

theorem celda_val_eid (nm : String) (eid cid rid : Int) (tl tl2 : List Int)
    (sf : List ℚ) (d : FlujosDict) (hce : cid ≠ eid) (hre : rid ≠ eid) :
    ((Equipo.mk nm (eid :: tl) (cid :: rid :: tl2) sf .celda).calcular d).val eid =
      (d.val eid).actualizar_contenido_fino := by
  simp [Equipo.calcular, Equipo.calcularCelda, FlujosDict.set, hce, hre,
    Ne.symm hce, Ne.symm hre]

theorem celda_val_other (nm : String) (eid cid rid : Int) (tl tl2 : List Int)
    (sf : List ℚ) (d : FlujosDict) {j : Int} (hje : j ≠ eid) (hjc : j ≠ cid)
    (hjr : j ≠ rid) :
    ((Equipo.mk nm (eid :: tl) (cid :: rid :: tl2) sf .celda).calcular d).val j =
      d.val j := by
  simp [Equipo.calcular, Equipo.calcularCelda, FlujosDict.set, hje, hjc, hjr]

theorem sumaFold_val_other (sid : Int) :
    ∀ (es : List Int) (d1 : FlujosDict) {j : Int}, j ≠ sid →
      ((es.foldl (sumaPaso sid) d1).val j) = d1.val j := by
  intro es
  induction es with
  | nil => intro d1 j hj; rfl
  | cons i es ih =>
    intro d1 j hj
    simp only [List.foldl_cons]
    rw [ih _ hj, sumaPaso, FlujosDict.set_val_ne _ _ _ hj]

theorem sumaFold_val_sid (sid : Int) :
    ∀ (es : List Int) (d1 : FlujosDict), sid ∉ es →
      ((es.foldl (sumaPaso sid) d1).val sid) =
        { d1.val sid with
          masa := (d1.val sid).masa + (es.map (fun i => (d1.val i).masa)).sum,
          contenido_fino := (d1.val sid).contenido_fino
            + (es.map (fun i => (d1.val i).contenido_fino)).sum } := by
  intro es
  induction es with
  | nil =>
    intro d1 _
    simp [Flujo.mk.injEq]
  | cons i es ih =>
    intro d1 hsid
    have hi : i ≠ sid := fun h => hsid (h ▸ List.mem_cons_self i es)
    have hes : sid ∉ es := fun h => hsid (List.mem_cons_of_mem i h)
    simp only [List.foldl_cons]
    rw [ih _ hes]
    have hval : ∀ a ∈ es, ((sumaPaso sid d1 i).val a).masa = (d1.val a).masa ∧
        ((sumaPaso sid d1 i).val a).contenido_fino = (d1.val a).contenido_fino := by
      intro a ha
      by_cases haa : a = sid
      · exact absurd (haa ▸ ha) hes
      · rw [sumaPaso, FlujosDict.set_val_ne _ _ _ haa]
        exact ⟨rfl, rfl⟩
    have hm : (es.map (fun a => ((sumaPaso sid d1 i).val a).masa)).sum
        = (es.map (fun a => (d1.val a).masa)).sum := by
      rw [List.map_congr_left (fun a ha => (hval a ha).1)]
    have hc : (es.map (fun a => ((sumaPaso sid d1 i).val a).contenido_fino)).sum
        = (es.map (fun a => (d1.val a).contenido_fino)).sum := by
      rw [List.map_congr_left (fun a ha => (hval a ha).2)]
    rw [hm, hc]
    simp [sumaPaso, Flujo.mk.injEq, add_assoc]

theorem suma_val_sid (nm : String) (sid : Int) (ent tl : List Int) (sf : List ℚ)
    (d : FlujosDict) (hs : sid ∉ ent) :
    ((Equipo.mk nm ent (sid :: tl) sf .suma).calcular d).val sid =
      Flujo.actualizar_ley
        { d.val sid with
          masa := (ent.map (fun i => (d.val i).masa)).sum,
          contenido_fino := (ent.map (fun i => (d.val i).contenido_fino)).sum } := by
  simp only [Equipo.calcular, Equipo.calcularSuma]
  rw [FlujosDict.set_val_eq, sumaFold_val_sid sid ent _ hs]
  apply Flujo.actualizar_ley_congr
  · show _ + (ent.map _).sum = _
    rw [FlujosDict.set_val_eq]
    show (0 : ℚ) + _ = _
    rw [zero_add]
    refine congrArg List.sum (List.map_congr_left ?_)
    intro a ha
    rw [FlujosDict.set_val_ne _ _ _ (show a ≠ sid from fun h => hs (h ▸ ha))]
  · show _ + (ent.map _).sum = _
    rw [FlujosDict.set_val_eq]
    show (0 : ℚ) + _ = _
    rw [zero_add]
    refine congrArg List.sum (List.map_congr_left ?_)
    intro a ha
    rw [FlujosDict.set_val_ne _ _ _ (show a ≠ sid from fun h => hs (h ▸ ha))]
  · rw [FlujosDict.set_val_eq]
  · rw [FlujosDict.set_val_eq]

theorem suma_val_other (nm : String) (sid : Int) (ent tl : List Int) (sf : List ℚ)
    (d : FlujosDict) {j : Int} (hj : j ≠ sid) :
    ((Equipo.mk nm ent (sid :: tl) sf .suma).calcular d).val j = d.val j := by
  simp only [Equipo.calcular, Equipo.calcularSuma]
  rw [FlujosDict.set_val_ne _ _ _ hj, sumaFold_val_other sid ent _ hj,
    FlujosDict.set_val_ne _ _ _ hj]

/-! ### Frame and metadata preservation -/

theorem calc_val_frame (e : Equipo) (d : FlujosDict) {id : Int}
    (hs : id ∉ e.flujos_salida) (ht : id ∉ e.touchedFino) :
    (e.calcular d).val id = d.val id := by
  rcases e with ⟨nm, ent, sal, sf, tipo⟩
  cases tipo
  case celda =>
    match ent, sal with
    | [], _ => rfl
    | _ :: _, [] => rfl
    | _ :: _, [_] => rfl
    | eid :: tl, cid :: rid :: tl2 =>
      have hjc : id ≠ cid := fun h => hs (by simp [h])
      have hjr : id ≠ rid := fun h => hs (by simp [h])
      have hje : id ≠ eid := fun h => ht (by simp [Equipo.touchedFino, h])
      exact celda_val_other nm eid cid rid tl tl2 sf d hje hjc hjr
  case suma =>
    match sal with
    | [] => rfl
    | sid :: tl =>
      have hjs : id ≠ sid := fun h => hs (by simp [h])
      exact suma_val_other nm sid ent tl sf d hjs

theorem MetaEq.refl (X : FlujosDict) : MetaEq X X := fun _ => ⟨rfl, rfl⟩

theorem MetaEq.trans {X Y Z : FlujosDict} (h1 : MetaEq X Y) (h2 : MetaEq Y Z) :
    MetaEq X Z :=
  fun j => ⟨(h1 j).1.trans (h2 j).1, (h1 j).2.trans (h2 j).2⟩

theorem MetaEq.set (d : FlujosDict) (i : Int) (f : Flujo)
    (h1 : f.nombre = (d.val i).nombre) (h2 : f.id = (d.val i).id) :
    MetaEq (d.set i f) d := by
  intro j
  by_cases hj : j = i
  · subst hj
    rw [FlujosDict.set_val_eq]
    exact ⟨h1, h2⟩
  · rw [FlujosDict.set_val_ne _ _ _ hj]
    exact ⟨rfl, rfl⟩

theorem sumaFold_meta (sid : Int) : ∀ (es : List Int) (d1 : FlujosDict),
    MetaEq (es.foldl (sumaPaso sid) d1) d1 := by
  intro es
  induction es with
  | nil => intro d1; exact MetaEq.refl d1
  | cons i es ih =>
    intro d1
    exact (ih (sumaPaso sid d1 i)).trans (MetaEq.set _ _ _ rfl rfl)

theorem calc_meta (e : Equipo) (d : FlujosDict) : MetaEq (e.calcular d) d := by
  rcases e with ⟨nm, ent, sal, sf, tipo⟩
  cases tipo
  case celda =>
    match ent, sal with
    | [], _ => exact MetaEq.refl d
    | _ :: _, [] => exact MetaEq.refl d
    | _ :: _, [_] => exact MetaEq.refl d
    | eid :: tl, cid :: rid :: tl2 =>
      simp only [Equipo.calcular, Equipo.calcularCelda]
      refine MetaEq.trans (MetaEq.set _ _ _ rfl rfl) ?_
      refine MetaEq.trans (MetaEq.set _ _ _ rfl rfl) ?_
      refine MetaEq.trans (MetaEq.set _ _ _ rfl rfl) ?_
      refine MetaEq.trans (MetaEq.set _ _ _ rfl rfl) ?_
      refine MetaEq.trans (MetaEq.set _ _ _ rfl rfl) ?_
      refine MetaEq.trans (MetaEq.set _ _ _ rfl rfl) ?_
      exact MetaEq.set _ _ _ rfl rfl
  case suma =>
    match sal with
    | [] => exact MetaEq.refl d
    | sid :: tl =>
      simp only [Equipo.calcular, Equipo.calcularSuma]
      refine MetaEq.trans (MetaEq.set _ _ _ rfl rfl) ?_
      exact (sumaFold_meta sid ent _).trans (MetaEq.set _ _ _ rfl rfl)

theorem sumaFold_keys (sid : Int) : ∀ (es : List Int) (d1 : FlujosDict),
    (es.foldl (sumaPaso sid) d1).keys = d1.keys := by
  intro es
  induction es with
  | nil => intro d1; rfl
  | cons i es ih =>
    intro d1
    rw [List.foldl_cons, ih]
    rfl

theorem calc_keys (e : Equipo) (d : FlujosDict) : (e.calcular d).keys = d.keys := by
  rcases e with ⟨nm, ent, sal, sf, tipo⟩
  cases tipo
  case celda =>
    match ent, sal with
    | [], _ => rfl
    | _ :: _, [] => rfl
    | _ :: _, [_] => rfl
    | eid :: tl, cid :: rid :: tl2 => rfl
  case suma =>
    match sal with
    | [] => rfl
    | sid :: tl =>
      simp only [Equipo.calcular, Equipo.calcularSuma, FlujosDict.set_keys]
      rw [sumaFold_keys]
      rfl

/-! ### Pass-level lemmas -/

theorem runList_cons (e : Equipo) (s : List Equipo) (d : FlujosDict) :
    runList (e :: s) d = runList s (e.calcular d) := rfl

theorem runList_keys : ∀ (s : List Equipo) (d : FlujosDict),
    (runList s d).keys = d.keys := by
  intro s
  induction s with
  | nil => intro d; rfl
  | cons e s ih =>
    intro d
    rw [runList_cons, ih, calc_keys]

theorem runList_meta : ∀ (s : List Equipo) (d : FlujosDict), MetaEq (runList s d) d := by
  intro s
  induction s with
  | nil => intro d; exact MetaEq.refl d
  | cons e s ih =>
    intro d
    exact (ih (e.calcular d)).trans (calc_meta e d)

theorem allOutputs_cons (e : Equipo) (s : List Equipo) :
    allOutputs (e :: s) = e.flujos_salida ++ allOutputs s := rfl

theorem allInputs_cons (e : Equipo) (s : List Equipo) :
    allInputs (e :: s) = e.flujos_entrada ++ allInputs s := rfl

theorem not_mem_allOutputs {l : List Equipo} {id : Int} (h : id ∉ allOutputs l) :
    ∀ e ∈ l, id ∉ e.flujos_salida := by
  induction l with
  | nil => intro e he; cases he
  | cons a l ih =>
    intro e he
    rw [allOutputs_cons, List.mem_append] at h
    rcases List.mem_cons.mp he with rfl | he2
    · exact fun hx => h (Or.inl hx)
    · exact ih (fun hx => h (Or.inr hx)) e he2

theorem not_mem_allInputs {l : List Equipo} {id : Int} (h : id ∉ allInputs l) :
    ∀ e ∈ l, id ∉ e.flujos_entrada := by
  induction l with
  | nil => intro e he; cases he
  | cons a l ih =>
    intro e he
    rw [allInputs_cons, List.mem_append] at h
    rcases List.mem_cons.mp he with rfl | he2
    · exact fun hx => h (Or.inl hx)
    · exact ih (fun hx => h (Or.inr hx)) e he2

theorem mem_allInputs {l : List Equipo} {e : Equipo} {id : Int} (he : e ∈ l)
    (hid : id ∈ e.flujos_entrada) : id ∈ allInputs l := by
  induction l with
  | nil => cases he
  | cons a l ih =>
    rw [allInputs_cons, List.mem_append]
    rcases List.mem_cons.mp he with rfl | he2
    · exact Or.inl hid
    · exact Or.inr (ih he2)

theorem touchedFino_subset (e : Equipo) : ∀ id ∈ e.touchedFino, id ∈ e.flujos_entrada := by
  rcases e with ⟨nm, ent, sal, sf, tipo⟩
  cases tipo
  case celda =>
    match ent, sal with
    | [], _ => intro id h; cases h
    | _ :: _, [] => intro id h; cases h
    | _ :: _, [_] => intro id h; cases h
    | eid :: tl, cid :: rid :: tl2 =>
      intro id h
      rcases List.mem_cons.mp h with rfl | h2
      · exact List.mem_cons_self _ _
      · cases h2
  case suma =>
    intro id h
    rcases ent with _ | ⟨a, t⟩ <;> rcases sal with _ | ⟨b, u⟩ <;> cases h

theorem runList_frame : ∀ (s : List Equipo) (d : FlujosDict) {id : Int},
    (∀ e ∈ s, id ∉ e.flujos_salida ∧ id ∉ e.touchedFino) →
    (runList s d).val id = d.val id := by
  intro s
  induction s with
  | nil => intro d id _; rfl
  | cons e s ih =>
    intro d id h
    rw [runList_cons, ih _ (fun a ha => h a (List.mem_cons_of_mem e ha)),
      calc_val_frame e d (h e (List.mem_cons_self e s)).1
        (h e (List.mem_cons_self e s)).2]

theorem MetaEq.symm {X Y : FlujosDict} (h : MetaEq X Y) : MetaEq Y X :=
  fun j => ⟨(h j).1.symm, (h j).2.symm⟩

/-- Recomputing one well-formed node on two states that agree on the node's
inputs (and on the never-written fields everywhere) writes the same values
on everything the node writes. -/
theorem calc_cong (e : Equipo) (X Y : FlujosDict)
    (hwfe : e.bienFormadoB = true)
    (hdisj : ∀ id ∈ e.flujos_entrada, id ∉ e.flujos_salida)
    (hin : ∀ id ∈ e.flujos_entrada, X.val id = Y.val id)
    (hmeta : MetaEq X Y) :
    ∀ id : Int, (id ∈ e.flujos_salida ∨ id ∈ e.touchedFino) →
      (e.calcular X).val id = (e.calcular Y).val id := by
  rcases e with ⟨nm, ent, sal, sf, tipo⟩
  cases tipo
  case celda =>
    rcases ent with _ | ⟨eid, ent1⟩
    · exact absurd hwfe (by simp [Equipo.bienFormadoB])
    rcases ent1 with _ | ⟨w, ent2⟩
    case cons => exact absurd hwfe (by simp [Equipo.bienFormadoB])
    rcases sal with _ | ⟨cid, sal1⟩
    · exact absurd hwfe (by simp [Equipo.bienFormadoB])
    rcases sal1 with _ | ⟨rid, sal2⟩
    · exact absurd hwfe (by simp [Equipo.bienFormadoB])
    rcases sal2 with _ | ⟨y, sal3⟩
    case cons => exact absurd hwfe (by simp [Equipo.bienFormadoB])
    have hcr : cid ≠ rid := by
      simpa [Equipo.bienFormadoB, bne_iff_ne] using hwfe
    have hXY : X.val eid = Y.val eid := hin eid (List.mem_cons_self _ _)
    have hde : eid ∉ ([cid, rid] : List Int) := hdisj eid (List.mem_cons_self _ _)
    have hec : eid ≠ cid := fun h => hde (by simp [h])
    have her : eid ≠ rid := fun h => hde (by simp [h])
    intro id hid
    rcases hid with hid | hid
    · rcases List.mem_cons.mp hid with rfl | hid2
      · rw [celda_val_conc nm eid id rid [] [] sf X (Ne.symm hec) (Ne.symm her) hcr,
          celda_val_conc nm eid id rid [] [] sf Y (Ne.symm hec) (Ne.symm her) hcr]
        apply Flujo.actualizar_ley_congr
        · exact congrArg (fun v => v.masa * sf.getD 0 0) hXY
        · exact congrArg (fun v => v.masa * v.ley / 100 * sf.getD 1 0) hXY
        · exact (hmeta id).1
        · exact (hmeta id).2
      · rcases List.mem_cons.mp hid2 with rfl | hid3
        · rw [celda_val_rel nm eid cid id [] [] sf X (Ne.symm hec) (Ne.symm her) hcr,
            celda_val_rel nm eid cid id [] [] sf Y (Ne.symm hec) (Ne.symm her) hcr]
          apply Flujo.actualizar_ley_congr
          · exact congrArg (fun v => v.masa * (1 - sf.getD 0 0)) hXY
          · exact congrArg (fun v => v.masa * v.ley / 100 * (1 - sf.getD 1 0)) hXY
          · exact (hmeta id).1
          · exact (hmeta id).2
        · cases hid3
    · have : id = eid := by simpa [Equipo.touchedFino] using hid
      subst this
      rw [celda_val_eid nm id cid rid [] [] sf X (Ne.symm hec) (Ne.symm her),
        celda_val_eid nm id cid rid [] [] sf Y (Ne.symm hec) (Ne.symm her)]
      exact congrArg Flujo.actualizar_contenido_fino hXY
  case suma =>
    rcases sal with _ | ⟨sid, sal1⟩
    · exact absurd hwfe (by simp [Equipo.bienFormadoB])
    rcases sal1 with _ | ⟨y, sal2⟩
    case cons => exact absurd hwfe (by simp [Equipo.bienFormadoB])
    have hsid : sid ∉ ent := fun h => hdisj sid h (List.mem_cons_self _ _)
    intro id hid
    rcases hid with hid | hid
    · rcases List.mem_cons.mp hid with rfl | hid2
      · rw [suma_val_sid nm id ent [] sf X hsid, suma_val_sid nm id ent [] sf Y hsid]
        apply Flujo.actualizar_ley_congr
        · exact congrArg List.sum
            (List.map_congr_left (fun a ha => congrArg Flujo.masa (hin a ha)))
        · exact congrArg List.sum
            (List.map_congr_left (fun a ha => congrArg Flujo.contenido_fino (hin a ha)))
        · exact (hmeta id).1
        · exact (hmeta id).2
      · cases hid2
    · exact absurd hid (by
        rcases ent with _ | ⟨a, t⟩ <;> simp [Equipo.touchedFino])

/-- Processing a well-formed, recycle-free node list on two states that agree
on every circuit-external input (and on the never-written fields) yields
states that agree on every flow that was written, and keeps any prior
agreement. -/
theorem runList_cong : ∀ (s : List Equipo) (X Y : FlujosDict),
    bienFormado s = true →
    sinReciclo s = true →
    (∀ e ∈ s, ∀ id ∈ e.flujos_entrada, id ∉ allOutputs s → X.val id = Y.val id) →
    MetaEq X Y →
    ∀ id : Int, (X.val id = Y.val id ∨ id ∈ allOutputs s) →
      (runList s X).val id = (runList s Y).val id := by
  intro s
  induction s with
  | nil =>
    intro X Y _ _ _ _ id hid
    rcases hid with h | h
    · exact h
    · cases h
  | cons e s ih =>
    intro X Y hwf hacyc hin hmeta id hid
    have hwf_e : e.bienFormadoB = true := by
      have := (List.all_eq_true.mp hwf) e (List.mem_cons_self e s)
      exact this
    have hwf_s : bienFormado s = true :=
      List.all_eq_true.mpr (fun a ha =>
        (List.all_eq_true.mp hwf) a (List.mem_cons_of_mem e ha))
    rw [sinReciclo, Bool.and_eq_true] at hacyc
    have hacyc2 := hacyc
    have hacyc_e : ∀ i ∈ e.flujos_entrada, i ∉ allOutputs (e :: s) := by
      intro i hi
      exact of_decide_eq_true ((List.all_eq_true.mp hacyc2.1) i hi)
    have hacyc_s : sinReciclo s = true := hacyc2.2
    have hdisj_e : ∀ i ∈ e.flujos_entrada, i ∉ e.flujos_salida := by
      intro i hi hcon
      exact hacyc_e i hi (by rw [allOutputs_cons, List.mem_append]; exact Or.inl hcon)
    have hin_e : ∀ i ∈ e.flujos_entrada, X.val i = Y.val i := by
      intro i hi
      exact hin e (List.mem_cons_self e s) i hi (hacyc_e i hi)
    have hcong := calc_cong e X Y hwf_e hdisj_e hin_e hmeta
    have hmeta2 : MetaEq (e.calcular X) (e.calcular Y) :=
      ((calc_meta e X).trans hmeta).trans (calc_meta e Y).symm
    rw [runList_cons, runList_cons]
    refine ih (e.calcular X) (e.calcular Y) hwf_s hacyc_s ?_ hmeta2 id ?_
    · intro a ha i hi hout
      by_cases hw : i ∈ e.flujos_salida ∨ i ∈ e.touchedFino
      · exact hcong i hw
      · push_neg at hw
        rw [calc_val_frame e X hw.1 hw.2, calc_val_frame e Y hw.1 hw.2]
        refine hin a (List.mem_cons_of_mem e ha) i hi ?_
        rw [allOutputs_cons, List.mem_append]
        rintro (h | h)
        · exact hw.1 h
        · exact hout h
    · rcases hid with hXYid | hout
      · by_cases hw : id ∈ e.flujos_salida ∨ id ∈ e.touchedFino
        · exact Or.inl (hcong id hw)
        · push_neg at hw
          left
          rw [calc_val_frame e X hw.1 hw.2, calc_val_frame e Y hw.1 hw.2]
          exact hXYid
      · rw [allOutputs_cons, List.mem_append] at hout
        rcases hout with h | h
        · exact Or.inl (hcong id (Or.inl h))
        · exact Or.inr h

/-- Recomputing a node leaves a consistent flow it does not output entirely
unchanged: the only other write is the celda's re-derivation of its input's
fine content, and on a consistent flow that re-derivation is the identity. -/
theorem calc_feed_stable (e : Equipo) (d : FlujosDict) {id : Int}
    (hs : id ∉ e.flujos_salida) (hcons : Consistente (d.val id)) :
    (e.calcular d).val id = d.val id := by
  by_cases ht : id ∈ e.touchedFino
  · rcases e with ⟨nm, ent, sal, sf, tipo⟩
    cases tipo
    · match ent, sal, hs, ht with
      | [], _, hs, ht => exact absurd ht (by simp [Equipo.touchedFino])
      | _ :: _, [], hs, ht => exact absurd ht (by simp [Equipo.touchedFino])
      | _ :: _, [_], hs, ht => exact absurd ht (by simp [Equipo.touchedFino])
      | eid :: tl, cid :: rid :: tl2, hs, ht =>
        have hide : id = eid := by simpa [Equipo.touchedFino] using ht
        subst hide
        have hec : id ≠ cid := fun h => hs (by simp [h])
        have her : id ≠ rid := fun h => hs (by simp [h])
        rw [celda_val_eid nm id cid rid tl tl2 sf d (Ne.symm hec) (Ne.symm her)]
        exact Flujo.update_fino_self _ hcons
    · exact absurd ht (by rcases ent with _ | ⟨a, t⟩ <;>
        rcases sal with _ | ⟨b, u⟩ <;> simp [Equipo.touchedFino])
  · exact calc_val_frame e d hs ht

/-- A whole pass leaves a consistent flow that no node outputs unchanged. -/
theorem runList_feed_stable : ∀ (s : List Equipo) (d : FlujosDict) {id : Int},
    id ∉ allOutputs s → Consistente (d.val id) →
    (runList s d).val id = d.val id := by
  intro s
  induction s with
  | nil => intro d id _ _; rfl
  | cons e s ih =>
    intro d id h hcons
    rw [allOutputs_cons, List.mem_append] at h
    push_neg at h
    have hstep : (e.calcular d).val id = d.val id := calc_feed_stable e d h.1 hcons
    rw [runList_cons, ih _ h.2 (by rw [hstep]; exact hcons), hstep]

/-- On a well-formed recycle-free circuit whose feed flows are consistent, a
second full pass changes nothing. -/
theorem runList_idem (l : List Equipo) (d : FlujosDict)
    (hwf : bienFormado l = true) (hacyc : sinReciclo l = true)
    (hfeed : feedConsistent l d) :
    runList l (runList l d) = runList l d := by
  have hval : ∀ j : Int, (runList l (runList l d)).val j = (runList l d).val j := by
    intro j
    refine runList_cong l (runList l d) d hwf hacyc ?_ (runList_meta l d) j ?_
    · intro e he i hi hout
      exact runList_feed_stable l d hout (hfeed i (mem_allInputs he hi) hout)
    · by_cases hout : j ∈ allOutputs l
      · exact Or.inr hout
      · left
        by_cases hinp : j ∈ allInputs l
        · exact runList_feed_stable l d hout (hfeed j hinp hout)
        · refine runList_frame l d ?_
          intro e he
          exact ⟨not_mem_allOutputs hout e he,
            fun htc => (not_mem_allInputs hinp e he) (touchedFino_subset e _ htc)⟩
  refine FlujosDict.ext ?_ (funext hval)
  simp [runList_keys]

/-- Iterating the pass any positive number of times equals one pass, on a
well-formed recycle-free circuit with consistent feeds. -/
theorem iterate_runList_idem (l : List Equipo) (d : FlujosDict)
    (hwf : bienFormado l = true) (hacyc : sinReciclo l = true)
    (hfeed : feedConsistent l d) :
    ∀ k : Nat, (fun dc => runList l dc)^[k + 1] d = runList l d := by
  intro k
  induction k with
  | zero => rw [Function.iterate_one]
  | succ m ih =>
    rw [Function.iterate_succ_apply', ih]
    exact runList_idem l d hwf hacyc hfeed

theorem foldl_range_iterate {α : Type} (f : α → α) : ∀ (n : Nat) (a : α),
    (List.range n).foldl (fun x _ => f x) a = f^[n] a := by
  intro n
  induction n with
  | zero => intro a; rfl
  | succ m ih =>
    intro a
    rw [List.range_succ, List.foldl_append, ih, List.foldl_cons, List.foldl_nil,
      Function.iterate_succ_apply']

/-- The loop of `simular` is exactly `iteraciones_convergencia` applications
of `ejecutar_iteracion`. -/
theorem simularFlujos_eq_iterate (s : Simulador) :
    s.simularFlujos
      = (fun d => ejecutarIteracion s.equipos d)^[s.iteraciones_convergencia] s.flujos :=
  foldl_range_iterate _ _ _

/-! ### Claim C1 -/

/-- C1 (counterexample): the claim says a node's recompute writes only its
declared output flows and leaves every other flow, including its declared
input flows, completely unchanged.  On a celda whose input flow holds an
out-of-sync fine content (mass 100, grade 2, fine content 0), `calcular`
rewrites the input's fine content to 2 even though flow 1 is not among the
declared outputs, so the claim is false. -/
theorem celda_modifica_entrada :
    ((1 : Int) ∉ celdaC1.flujos_salida)
    ∧ ((celdaC1.calcular dC1).val 1).contenido_fino = 2
    ∧ (dC1.val 1).contenido_fino = 0 := by
  refine ⟨by decide, ?_, ?_⟩ <;>
    simp [celdaC1, dC1, Equipo.calcular, Equipo.calcularCelda, FlujosDict.set,
      Flujo.actualizar_contenido_fino, Flujo.actualizar_ley]

/-- C1 (amended): a node's recompute writes only its declared output flows,
except that `Celda.calcular` additionally re-derives the fine content of its
first declared input flow from that flow's mass and grade; every flow outside
the declared outputs and that touched input is unchanged, the touched input
keeps its mass, grade and name, and `Suma.calcular` touches no input at all. -/
theorem calcular_frame (e : Equipo) (d : FlujosDict) (id : Int) :
    (id ∉ e.flujos_salida → id ∉ e.touchedFino → (e.calcular d).val id = d.val id)
    ∧ (id ∉ e.flujos_salida →
        ((e.calcular d).val id).masa = (d.val id).masa
        ∧ ((e.calcular d).val id).ley = (d.val id).ley
        ∧ ((e.calcular d).val id).nombre = (d.val id).nombre)
    ∧ (id ∈ e.touchedFino → id ∉ e.flujos_salida →
        id ∈ e.flujos_entrada
        ∧ ((e.calcular d).val id).contenido_fino
            = (d.val id).masa * (d.val id).ley / 100)
    ∧ (e.tipo = TipoEquipo.suma → e.touchedFino = []) := by
  refine ⟨fun hs ht => calc_val_frame e d hs ht, ?_, ?_, ?_⟩
  · intro hs
    by_cases ht : id ∈ e.touchedFino
    · rcases e with ⟨nm, ent, sal, sf, tipo⟩
      cases tipo
      · match ent, sal, hs, ht with
        | [], _, hs, ht => exact absurd ht (by simp [Equipo.touchedFino])
        | _ :: _, [], hs, ht => exact absurd ht (by simp [Equipo.touchedFino])
        | _ :: _, [_], hs, ht => exact absurd ht (by simp [Equipo.touchedFino])
        | eid :: tl, cid :: rid :: tl2, hs, ht =>
          have hide : id = eid := by simpa [Equipo.touchedFino] using ht
          subst hide
          have hec : id ≠ cid := fun h => hs (by simp [h])
          have her : id ≠ rid := fun h => hs (by simp [h])
          rw [celda_val_eid nm id cid rid tl tl2 sf d (Ne.symm hec) (Ne.symm her)]
          exact ⟨rfl, rfl, rfl⟩
      · exact absurd ht (by rcases ent with _ | ⟨a, t⟩ <;>
          rcases sal with _ | ⟨b, u⟩ <;> simp [Equipo.touchedFino])
    · rw [calc_val_frame e d hs ht]
      exact ⟨rfl, rfl, rfl⟩
  · intro ht hs
    refine ⟨touchedFino_subset e id ht, ?_⟩
    rcases e with ⟨nm, ent, sal, sf, tipo⟩
    cases tipo
    · match ent, sal, hs, ht with
      | [], _, hs, ht => exact absurd ht (by simp [Equipo.touchedFino])
      | _ :: _, [], hs, ht => exact absurd ht (by simp [Equipo.touchedFino])
      | _ :: _, [_], hs, ht => exact absurd ht (by simp [Equipo.touchedFino])
      | eid :: tl, cid :: rid :: tl2, hs, ht =>
        have hide : id = eid := by simpa [Equipo.touchedFino] using ht
        subst hide
        have hec : id ≠ cid := fun h => hs (by simp [h])
        have her : id ≠ rid := fun h => hs (by simp [h])
        rw [celda_val_eid nm id cid rid tl tl2 sf d (Ne.symm hec) (Ne.symm her)]
        rfl
    · exact absurd ht (by rcases ent with _ | ⟨a, t⟩ <;>
        rcases sal with _ | ⟨b, u⟩ <;> simp [Equipo.touchedFino])
  · intro htipo
    rcases e with ⟨nm, ent, sal, sf, tipo⟩
    cases htipo
    rcases ent with _ | ⟨a, t⟩ <;> rcases sal with _ | ⟨b, u⟩ <;>
      simp [Equipo.touchedFino]

/-- C1 (witness): the amended frame property evaluated on the concrete celda:
flow 5 (neither output nor touched input) is untouched, and the touched input
flow 1 gets exactly the re-derived fine content. -/
theorem calcular_frame_witness :
    ((5 : Int) ∉ celdaC1.flujos_salida) ∧ ((5 : Int) ∉ celdaC1.touchedFino)
    ∧ (celdaC1.calcular dC1).val 5 = dC1.val 5
    ∧ ((1 : Int) ∈ celdaC1.touchedFino) ∧ ((1 : Int) ∉ celdaC1.flujos_salida)
    ∧ ((celdaC1.calcular dC1).val 1).contenido_fino
        = (dC1.val 1).masa * (dC1.val 1).ley / 100 :=
  ⟨by decide, by decide, (calcular_frame celdaC1 dC1 5).1 (by decide) (by decide),
    by decide, by decide,
    ((calcular_frame celdaC1 dC1 1).2.2.1 (by decide) (by decide)).2⟩

/-! ### Claim C3 -/

/-- C3: for every input flow state and split factors in the unit interval, a
celda's two output flows conserve mass and fine content: concentrate mass
plus reject mass equals the input mass, and concentrate fine plus reject
fine equals the input's fine content as re-derived from its mass and grade. -/
theorem celda_conservacion (d : FlujosDict) (nm : String) (eid cid rid : Int)
    (sp spf : ℚ) (hec : eid ≠ cid) (her : eid ≠ rid) (hcr : cid ≠ rid)
    (_hsp0 : 0 ≤ sp) (_hsp1 : sp ≤ 1) (_hspf0 : 0 ≤ spf) (_hspf1 : spf ≤ 1) :
    ((((Equipo.mk nm [eid] [cid, rid] [sp, spf] .celda).calcular d).val cid).masa
        + (((Equipo.mk nm [eid] [cid, rid] [sp, spf] .celda).calcular d).val rid).masa
      = (d.val eid).masa)
    ∧ ((((Equipo.mk nm [eid] [cid, rid] [sp, spf] .celda).calcular d).val cid).contenido_fino
        + (((Equipo.mk nm [eid] [cid, rid] [sp, spf] .celda).calcular d).val rid).contenido_fino
      = (d.val eid).masa * (d.val eid).ley / 100) := by
  rw [celda_val_conc nm eid cid rid [] [] [sp, spf] d (Ne.symm hec) (Ne.symm her) hcr,
    celda_val_rel nm eid cid rid [] [] [sp, spf] d (Ne.symm hec) (Ne.symm her) hcr]
  constructor
  · show (d.val eid).masa * ([sp, spf].getD 0 0)
        + (d.val eid).masa * (1 - [sp, spf].getD 0 0) = (d.val eid).masa
    ring
  · show (d.val eid).masa * (d.val eid).ley / 100 * ([sp, spf].getD 1 0)
        + (d.val eid).masa * (d.val eid).ley / 100 * (1 - [sp, spf].getD 1 0)
      = (d.val eid).masa * (d.val eid).ley / 100
    ring

/-- C3 (witness): conservation on the concrete feed (mass 100, grade 1.5)
with split factors 0.10 and 0.75. -/
theorem celda_conservacion_witness :
    ((1 : Int) ≠ 2) ∧ ((1 : Int) ≠ 3) ∧ ((2 : Int) ≠ 3)
    ∧ (0 ≤ (1 : ℚ)/10) ∧ ((1 : ℚ)/10 ≤ 1) ∧ (0 ≤ (3 : ℚ)/4) ∧ ((3 : ℚ)/4 ≤ 1)
    ∧ ((((Equipo.mk "C" [1] [2, 3] [1/10, 3/4] .celda).calcular dC3).val 2).masa
        + (((Equipo.mk "C" [1] [2, 3] [1/10, 3/4] .celda).calcular dC3).val 3).masa
      = (dC3.val 1).masa)
    ∧ ((((Equipo.mk "C" [1] [2, 3] [1/10, 3/4] .celda).calcular dC3).val 2).contenido_fino
        + (((Equipo.mk "C" [1] [2, 3] [1/10, 3/4] .celda).calcular dC3).val 3).contenido_fino
      = (dC3.val 1).masa * (dC3.val 1).ley / 100) :=
  ⟨by decide, by decide, by decide, by norm_num, by norm_num, by norm_num, by norm_num,
    (celda_conservacion dC3 "C" 1 2 3 (1/10) (3/4) (by decide) (by decide) (by decide)
      (by norm_num) (by norm_num) (by norm_num) (by norm_num)).1,
    (celda_conservacion dC3 "C" 1 2 3 (1/10) (3/4) (by decide) (by decide) (by decide)
      (by norm_num) (by norm_num) (by norm_num) (by norm_num)).2⟩

/-! ### Claim C10 -/

/-- C10: for a flow id not present in the simulator's flow mapping,
`establecer_alimentacion` is a silent no-op: the whole simulator state,
nodes and flows included, is returned unchanged and no error is raised. -/
theorem alimentacion_desconocida_sin_efecto (s : Simulador) (id : Int)
    (masa ley : ℚ) (h : id ∉ s.flujos.keys) :
    s.establecer_alimentacion id masa ley = s := by
  unfold Simulador.establecer_alimentacion
  rw [if_neg h]

/-- C10 (witness): setting the feed on the unknown flow id 99 leaves the
concrete simulator untouched. -/
theorem alimentacion_desconocida_sin_efecto_witness :
    ((99 : Int) ∉ simC10.flujos.keys)
    ∧ simC10.establecer_alimentacion 99 50 5 = simC10 :=
  ⟨by decide, alimentacion_desconocida_sin_efecto simC10 99 50 5 (by decide)⟩

/-! ### Claim C4 -/

/-- C4: `simular` runs exactly the configured number of full passes — the
flow state it hands to the result computation is the pass function iterated
exactly `iteraciones_convergencia` times, with each pass processing every
node once in list order — there is no convergence check that could stop it
early or raise, and the constructor default for the pass count is 100. -/
theorem simular_pasos_fijos (eqs : List Equipo) (d : FlujosDict)
    (rel : List Int) (n : Nat) :
    (Simulador.mk eqs d rel n).simularFlujos
        = (fun dc => ejecutarIteracion eqs dc)^[n] d
    ∧ (Simulador.mk eqs d rel n).simular
        = calcResultados eqs rel ((fun dc => ejecutarIteracion eqs dc)^[n] d)
    ∧ (Simulador.nuevo eqs d rel).iteraciones_convergencia = 100 := by
  refine ⟨simularFlujos_eq_iterate _, ?_, rfl⟩
  show calcResultados eqs rel (Simulador.mk eqs d rel n).simularFlujos = _
  rw [simularFlujos_eq_iterate]

/-! ### Claim C5 -/

/-- C5: on a circuit of well-formed nodes with no recycle stream (no flow is
an output of a node and an input of that node or an earlier one in the
recompute order), starting from a state whose feed flows carry consistent
fine content, the result record of `simular` with one pass is identical to
the result record with any larger pass count. -/
theorem simular_aciclico_un_paso (eqs : List Equipo) (d : FlujosDict)
    (rel : List Int) (k : Nat) (hwf : bienFormado eqs = true)
    (hacyc : sinReciclo eqs = true) (hfeed : feedConsistent eqs d)
    (hk : 1 ≤ k) :
    (Simulador.mk eqs d rel 1).simular = (Simulador.mk eqs d rel k).simular := by
  obtain ⟨m, rfl⟩ := Nat.exists_eq_add_of_le hk
  have hA : (Simulador.mk eqs d rel 1).simularFlujos = runList eqs d := by
    rw [simularFlujos_eq_iterate]
    show (fun dc => runList eqs dc)^[1] d = runList eqs d
    rw [Function.iterate_one]
  have hB : (Simulador.mk eqs d rel (1 + m)).simularFlujos = runList eqs d := by
    rw [simularFlujos_eq_iterate]
    show (fun dc => runList eqs dc)^[1 + m] d = runList eqs d
    rw [Nat.add_comm]
    exact iterate_runList_idem eqs d hwf hacyc hfeed m
  show calcResultados eqs rel (Simulador.mk eqs d rel 1).simularFlujos
      = calcResultados eqs rel (Simulador.mk eqs d rel (1 + m)).simularFlujos
  rw [hA, hB]

/-- C5 (witness): a two-celda acyclic chain with a consistent feed gives the
same result record after 1 pass and after 1000 passes. -/
theorem simular_aciclico_un_paso_witness :
    (bienFormado eqsC5 = true) ∧ (sinReciclo eqsC5 = true)
    ∧ feedConsistent eqsC5 dC5 ∧ (1 ≤ 1000)
    ∧ (Simulador.mk eqsC5 dC5 [5] 1).simular
        = (Simulador.mk eqsC5 dC5 [5] 1000).simular := by
  have hfeed : feedConsistent eqsC5 dC5 := by
    intro id hid hout
    simp only [allInputs, eqsC5, List.foldr_cons, List.foldr_nil] at hid
    simp only [allOutputs, eqsC5, List.foldr_cons, List.foldr_nil] at hout
    rcases List.mem_append.mp hid with h1 | h1
    · have : id = 1 := by simpa using h1
      subst this
      simp [Consistente, dC5]
    · have : id = 3 := by simpa using h1
      subst this
      exact absurd (by simp) hout
  exact ⟨by decide, by decide, hfeed, by decide,
    simular_aciclico_un_paso eqsC5 dC5 [5] 1000 (by decide) (by decide) hfeed (by decide)⟩

/-! ### Claim C2 -/

/-- C2: the single-splitter scenario with feed mass 100, grade 1.5 and split
factors 0.10 and 0.75, run through `establecer_alimentacion` and `simular`
with the default pass count: concentrate mass 10, fine 1.125, grade 11.25;
reject mass 90, fine 0.375, grade 5/12 (0.375/90*100); recovery 75,
mass pull 10, enrichment ratio 7.5, and both balance errors 0. -/
theorem simular_escenario_simple :
    simC2.simular.recuperacion = 75
    ∧ simC2.simular.mass_pull = 10
    ∧ simC2.simular.ley_concentrado = 45/4
    ∧ simC2.simular.razon_enriquecimiento = 15/2
    ∧ simC2.simular.error_masa = 0
    ∧ simC2.simular.error_cuf = 0
    ∧ (simC2.simularFlujos.val 2).masa = 10
    ∧ (simC2.simularFlujos.val 2).contenido_fino = 9/8
    ∧ (simC2.simularFlujos.val 2).ley = 45/4
    ∧ (simC2.simularFlujos.val 3).masa = 90
    ∧ (simC2.simularFlujos.val 3).contenido_fino = 3/8
    ∧ (simC2.simularFlujos.val 3).ley = 5/12 := by
  have hfeed : feedConsistent eqsC2 simC2.flujos := by
    intro id hid hout
    simp only [allInputs, eqsC2, List.foldr_cons, List.foldr_nil] at hid
    have : id = 1 := by simpa using hid
    subst this
    simp [Consistente, simC2, eqsC2, dC2, Simulador.nuevo,
      Simulador.establecer_alimentacion, FlujosDict.set,
      Flujo.actualizar_contenido_fino]
  have hflow : simC2.simularFlujos = runList eqsC2 simC2.flujos := by
    rw [simularFlujos_eq_iterate]
    show (fun dc => runList eqsC2 dc)^[100] simC2.flujos
        = runList eqsC2 simC2.flujos
    exact iterate_runList_idem eqsC2 simC2.flujos (by decide) (by decide) hfeed 99
  have hres : simC2.simular
      = calcResultados eqsC2 [3] (runList eqsC2 simC2.flujos) := by
    show calcResultados eqsC2 [3] simC2.simularFlujos = _
    rw [hflow]
  have hv1 : (runList eqsC2 simC2.flujos).val 1 = ⟨1, "", 100, 3/2, 3/2⟩ := by
    simp [runList, eqsC2, simC2, dC2, Simulador.nuevo,
      Simulador.establecer_alimentacion, Equipo.calcular, Equipo.calcularCelda,
      FlujosDict.set, Flujo.actualizar_contenido_fino, Flujo.actualizar_ley]
  have hv2 : (runList eqsC2 simC2.flujos).val 2 = ⟨2, "", 10, 45/4, 9/8⟩ := by
    simp [runList, eqsC2, simC2, dC2, Simulador.nuevo,
      Simulador.establecer_alimentacion, Equipo.calcular, Equipo.calcularCelda,
      FlujosDict.set, Flujo.actualizar_contenido_fino, Flujo.actualizar_ley]
    norm_num
  have hv3 : (runList eqsC2 simC2.flujos).val 3 = ⟨3, "", 90, 5/12, 3/8⟩ := by
    simp [runList, eqsC2, simC2, dC2, Simulador.nuevo,
      Simulador.establecer_alimentacion, Equipo.calcular, Equipo.calcularCelda,
      FlujosDict.set, Flujo.actualizar_contenido_fino, Flujo.actualizar_ley]
    norm_num
  have hia : idAlimDe eqsC2 = 1 := by decide
  have hfs : fSalida eqsC2 = [2, 3] := by decide
  have hfc : fSalidaConc eqsC2 [3] = [2] := by decide
  rw [hres, hflow]
  simp only [calcResultados, masaConcDe, cufConcDe, hia, hfs, hfc, hv1, hv2, hv3,
    List.map_cons, List.map_nil, List.sum_cons, List.sum_nil]
  norm_num

/-! ### Claim C6 -/

/-- C6: the derived metrics are total: recovery is 0 when the reference
feed's fine content is 0, mass pull is 0 when the feed's mass is 0,
concentrate grade is 0 when the summed product mass is 0, the enrichment
ratio is 0 when mass pull is 0, and deriving a grade from a zero mass yields
0 — every division is guarded, none of these paths can fail. -/
theorem resultados_totales (eqs : List Equipo) (rel : List Int) (d : FlujosDict) :
    ((d.val (idAlimDe eqs)).contenido_fino = 0 →
      (calcResultados eqs rel d).recuperacion = 0)
    ∧ ((d.val (idAlimDe eqs)).masa = 0 → (calcResultados eqs rel d).mass_pull = 0)
    ∧ (masaConcDe eqs rel d = 0 → (calcResultados eqs rel d).ley_concentrado = 0)
    ∧ ((calcResultados eqs rel d).mass_pull = 0 →
      (calcResultados eqs rel d).razon_enriquecimiento = 0)
    ∧ (∀ f : Flujo, f.masa = 0 → (f.actualizar_ley).ley = 0) := by
  refine ⟨?_, ?_, ?_, ?_, ?_⟩
  · intro h
    show (if (d.val (idAlimDe eqs)).contenido_fino > 0 then
        cufConcDe eqs rel d / (d.val (idAlimDe eqs)).contenido_fino * 100 else 0) = 0
    rw [h]
    simp
  · intro h
    show (if (d.val (idAlimDe eqs)).masa > 0 then
        masaConcDe eqs rel d / (d.val (idAlimDe eqs)).masa * 100 else 0) = 0
    rw [h]
    simp
  · intro h
    show (if masaConcDe eqs rel d > 0 then
        cufConcDe eqs rel d / masaConcDe eqs rel d * 100 else 0) = 0
    rw [h]
    simp
  · intro h
    show (if (calcResultados eqs rel d).mass_pull > 0 then
        (calcResultados eqs rel d).recuperacion / (calcResultados eqs rel d).mass_pull
        else 0) = 0
    rw [h]
    simp
  · intro f h
    show (if f.masa > 0 then f.contenido_fino / f.masa * 100 else 0) = 0
    rw [h]
    simp

/-- C6 (witness): on the all-zero circuit every guarded metric evaluates to
the defined 0. -/
theorem resultados_totales_witness :
    ((dC6.val (idAlimDe eqsC6)).contenido_fino = 0)
    ∧ ((dC6.val (idAlimDe eqsC6)).masa = 0)
    ∧ (masaConcDe eqsC6 [3] dC6 = 0)
    ∧ ((calcResultados eqsC6 [3] dC6).recuperacion = 0)
    ∧ ((calcResultados eqsC6 [3] dC6).mass_pull = 0)
    ∧ ((calcResultados eqsC6 [3] dC6).ley_concentrado = 0)
    ∧ ((calcResultados eqsC6 [3] dC6).razon_enriquecimiento = 0)
    ∧ (((⟨9, "x", 0, 0, 7⟩ : Flujo).actualizar_ley).ley = 0) := by
  have h := resultados_totales eqsC6 [3] dC6
  have hm : masaConcDe eqsC6 [3] dC6 = 0 := by
    simp [masaConcDe, fSalidaConc, dC6]
  exact ⟨rfl, rfl, hm, h.1 rfl, h.2.1 rfl, h.2.2.1 hm, h.2.2.2.1 (h.2.1 rfl),
    h.2.2.2.2 ⟨9, "x", 0, 0, 7⟩ rfl⟩

/-! ### Monte Carlo lemmas -/

theorem all_leyes_de (l : List (Int × ℚ × ℚ)) (h : ∀ t ∈ l, t.2.2 < 36) :
    (l.all (fun t => t.2.2 < 36)) = true := by
  rw [List.all_eq_true]
  intro t ht
  exact decide_eq_true (h t ht)

theorem all_leyes_contra {l : List (Int × ℚ × ℚ)} {t : Int × ℚ × ℚ} (ht : t ∈ l)
    (h : ¬ t.2.2 < 36) : (l.all (fun t => t.2.2 < 36)) = false := by
  rw [List.all_eq_false]
  exact ⟨t, ht, by simpa using h⟩

theorem mcTrial_eq_of_sample {sim : Simulador} {cfg : ConfiguracionMC}
    {alim : List (Int × ℚ × ℚ)} {rng : Nat → ℚ} {i k : Nat}
    {eqs2 : List Equipo} {si : List (String × ℚ)} {k1 : Nat}
    (hs : sampleSplits cfg.rangos rng sim.equipos cfg.equipos_objetivo [] k
      = .ok (eqs2, si, k1)) :
    mcTrial sim cfg alim rng i k =
      (if ((Simulador.mk eqs2 (applyAlim alim sim.flujos) sim.flujos_relave
            sim.iteraciones_convergencia).simular.flujos.all (fun t => t.2.2 < 36)) then
        .ok (some
          { iteracion := i
            recuperacion := (Simulador.mk eqs2 (applyAlim alim sim.flujos)
              sim.flujos_relave sim.iteraciones_convergencia).simular.recuperacion
            mass_pull := (Simulador.mk eqs2 (applyAlim alim sim.flujos)
              sim.flujos_relave sim.iteraciones_convergencia).simular.mass_pull
            ley_concentrado := (Simulador.mk eqs2 (applyAlim alim sim.flujos)
              sim.flujos_relave sim.iteraciones_convergencia).simular.ley_concentrado
            razon_enriquecimiento := (Simulador.mk eqs2 (applyAlim alim sim.flujos)
              sim.flujos_relave sim.iteraciones_convergencia).simular.razon_enriquecimiento
            split_info := si
            flujos := (Simulador.mk eqs2 (applyAlim alim sim.flujos)
              sim.flujos_relave sim.iteraciones_convergencia).simular.flujos }, k1)
      else .ok (none, k1)) := by
  unfold mcTrial
  rw [hs]

theorem mcTrial_rechaza {sim : Simulador} {cfg : ConfiguracionMC}
    {alim : List (Int × ℚ × ℚ)} {rng : Nat → ℚ} {i k : Nat}
    {eqs2 : List Equipo} {si : List (String × ℚ)} {k1 : Nat}
    (hs : sampleSplits cfg.rangos rng sim.equipos cfg.equipos_objetivo [] k
      = .ok (eqs2, si, k1))
    (hall : ((Simulador.mk eqs2 (applyAlim alim sim.flujos) sim.flujos_relave
        sim.iteraciones_convergencia).simular.flujos.all (fun t => t.2.2 < 36)) = false) :
    mcTrial sim cfg alim rng i k = .ok (none, k1) := by
  rw [mcTrial_eq_of_sample hs, hall, if_neg Bool.false_ne_true]

theorem mcTrial_some_leyes {sim : Simulador} {cfg : ConfiguracionMC}
    {alim : List (Int × ℚ × ℚ)} {rng : Nat → ℚ} {i k : Nat} {f : Fila} {k1 : Nat}
    (h : mcTrial sim cfg alim rng i k = .ok (some f, k1)) :
    ∀ t ∈ f.flujos, t.2.2 < 36 := by
  cases hs : sampleSplits cfg.rangos rng sim.equipos cfg.equipos_objetivo [] k with
  | error e =>
    unfold mcTrial at h
    rw [hs] at h
    exact absurd h (by simp)
  | ok trip =>
    rcases trip with ⟨eqs2, si, k2⟩
    rw [mcTrial_eq_of_sample hs] at h
    cases hcond : ((Simulador.mk eqs2 (applyAlim alim sim.flujos) sim.flujos_relave
        sim.iteraciones_convergencia).simular.flujos.all (fun t => t.2.2 < 36)) with
    | false =>
      rw [hcond] at h
      simp at h
    | true =>
      rw [hcond, if_pos rfl] at h
      simp only [Except.ok.injEq, Prod.mk.injEq, Option.some.injEq] at h
      rcases h with ⟨h1, _⟩
      intro t ht
      rw [← h1] at ht
      have ht2 : t ∈ (Simulador.mk eqs2 (applyAlim alim sim.flujos) sim.flujos_relave
          sim.iteraciones_convergencia).simular.flujos := ht
      have := List.all_eq_true.mp hcond t ht2
      simpa using this

theorem mcAux_leyes (sim : Simulador) (cfg : ConfiguracionMC)
    (alim : List (Int × ℚ × ℚ)) (rng : Nat → ℚ) :
    ∀ (idxs : List Nat) (k : Nat) (rs : List Fila) (k2 : Nat),
    mcAux sim cfg alim rng idxs k = .ok (rs, k2) →
    ∀ fila ∈ rs, ∀ t ∈ fila.flujos, t.2.2 < 36 := by
  intro idxs
  induction idxs with
  | nil =>
    intro k rs k2 h fila hf
    simp only [mcAux, Except.ok.injEq, Prod.mk.injEq] at h
    rw [← h.1] at hf
    cases hf
  | cons i rest ih =>
    intro k rs k2 h fila hf
    unfold mcAux at h
    cases ht : mcTrial sim cfg alim rng i k with
    | error e =>
      simp only [ht] at h
      exact absurd h (by simp)
    | ok p =>
      rcases p with ⟨row, k1⟩
      simp only [ht] at h
      cases ha : mcAux sim cfg alim rng rest k1 with
      | error e =>
        simp only [ha] at h
        exact absurd h (by simp)
      | ok q =>
        rcases q with ⟨tail, k3⟩
        simp only [ha, Except.ok.injEq, Prod.mk.injEq] at h
        rw [← h.1] at hf
        cases row with
        | none => exact ih k1 tail k3 ha fila hf
        | some f =>
          rcases List.mem_cons.mp hf with rfl | hf2
          · exact mcTrial_some_leyes ht
          · exact ih k1 tail k3 ha fila hf2

theorem aplicarFiltros_mem {lmin lmax : Option ℚ} {rs rows : List Fila}
    (h : aplicarFiltros lmin lmax rs = .ok rows) : ∀ fila ∈ rows, fila ∈ rs := by
  rcases lmin with _ | m1 <;> rcases lmax with _ | m2
  · simp only [aplicarFiltros, Except.ok.injEq] at h
    rw [← h]
    exact fun fila hf => hf
  all_goals
    rcases rs with _ | ⟨a, t⟩
    · simp [aplicarFiltros] at h
    · unfold aplicarFiltros at h
      rw [List.isEmpty_cons, if_neg Bool.false_ne_true] at h
      simp only [Except.ok.injEq] at h
      rw [← h]
      intro fila hf
      first
        | exact (List.mem_filter.mp hf).1
        | exact (List.mem_filter.mp ((List.mem_filter.mp hf).1)).1

theorem contiene_setSplit (nm nm2 : String) (sp : List ℚ) :
    ∀ eqs : List Equipo,
    contieneEquipo (setSplitFactor eqs nm2 sp) nm = contieneEquipo eqs nm := by
  intro eqs
  induction eqs with
  | nil => rfl
  | cons e t ih =>
    show (((if e.nombre = nm2 then { e with split_factor := sp } else e).nombre == nm)
        || contieneEquipo (setSplitFactor t nm2 sp) nm)
      = ((e.nombre == nm) || contieneEquipo t nm)
    rw [ih]
    by_cases hnm : e.nombre = nm2
    · rw [if_pos hnm]
    · rw [if_neg hnm]

theorem sampleSplits_filter (rangos : List (String × (ℚ × ℚ) × (ℚ × ℚ)))
    (rng : Nat → ℚ) (base : List Equipo) :
    ∀ (obj : List String) (eqs : List Equipo) (acc : List (String × ℚ)) (k : Nat),
    (∀ nm : String, contieneEquipo eqs nm = contieneEquipo base nm) →
    sampleSplits rangos rng eqs (obj.filter (fun nm => contieneEquipo base nm)) acc k
      = sampleSplits rangos rng eqs obj acc k := by
  intro obj
  induction obj with
  | nil => intro eqs acc k _; rfl
  | cons nm rest ih =>
    intro eqs acc k hsame
    rw [List.filter_cons]
    by_cases hc : contieneEquipo base nm = true
    · rw [if_pos hc]
      show sampleSplits rangos rng eqs (nm :: rest.filter (fun x => contieneEquipo base x)) acc k
        = sampleSplits rangos rng eqs (nm :: rest) acc k
      unfold sampleSplits
      rw [hsame nm, hc]
      simp only [if_pos]
      cases hlk : lookupRangos rangos nm with
      | none => rfl
      | some v =>
        rcases v with ⟨⟨mlo, mhi⟩, clo, chi⟩
        simp only
        exact ih _ _ _ (fun nm3 => (contiene_setSplit nm3 nm _ eqs).trans (hsame nm3))
    · have hc2 : contieneEquipo base nm = false := by
        cases hcc : contieneEquipo base nm
        · rfl
        · exact absurd hcc hc
      rw [if_neg (by rw [hc2]; exact Bool.false_ne_true)]
      rw [ih eqs acc k hsame]
      conv_rhs => unfold sampleSplits
      rw [hsame nm, hc2, if_neg Bool.false_ne_true]

theorem rango_uno : List.range 1 = [0] := by
  simp [List.range_succ]

theorem mcTrial_filter (sim : Simulador) (cfg : ConfiguracionMC)
    (alim : List (Int × ℚ × ℚ)) (rng : Nat → ℚ) (i k : Nat) :
    mcTrial sim
      { cfg with equipos_objetivo :=
          cfg.equipos_objetivo.filter (fun nm => contieneEquipo sim.equipos nm) }
      alim rng i k
      = mcTrial sim cfg alim rng i k := by
  have hs : sampleSplits cfg.rangos rng sim.equipos
      (cfg.equipos_objetivo.filter (fun nm => contieneEquipo sim.equipos nm)) [] k
      = sampleSplits cfg.rangos rng sim.equipos cfg.equipos_objetivo [] k :=
    sampleSplits_filter cfg.rangos rng sim.equipos cfg.equipos_objetivo
      sim.equipos [] k (fun _ => rfl)
  simp only [mcTrial]
  rw [hs]

theorem mcAux_filter (sim : Simulador) (cfg : ConfiguracionMC)
    (alim : List (Int × ℚ × ℚ)) (rng : Nat → ℚ) :
    ∀ (idxs : List Nat) (k : Nat),
    mcAux sim
      { cfg with equipos_objetivo :=
          cfg.equipos_objetivo.filter (fun nm => contieneEquipo sim.equipos nm) }
      alim rng idxs k
      = mcAux sim cfg alim rng idxs k := by
  intro idxs
  induction idxs with
  | nil => intro k; rfl
  | cons i rest ih =>
    intro k
    simp only [mcAux, mcTrial_filter, ih]

/-! ### Claim C7 -/

/-- C7 (counterexample): the claim says that naming a target node absent from
the circuit aborts the Monte Carlo run at setup with an error; on the
concrete circuit without a node called Fantasma, `simular_montecarlo`
returns an ordinary table instead of failing. -/
theorem montecarlo_objetivo_desconocido_ok :
    (¬ contieneEquipo simC7.equipos "Fantasma" = true)
    ∧ esOk (simC7.simular_montecarlo cfgC7 [] rngC7) = true := by
  constructor
  · decide
  · have hs : sampleSplits cfgC7.rangos rngC7 simC7.equipos cfgC7.equipos_objetivo [] 0
        = .ok (simC7.equipos, [], 0) := rfl
    have hD : (Simulador.mk simC7.equipos (applyAlim [] simC7.flujos) simC7.flujos_relave
        simC7.iteraciones_convergencia).simularFlujos = runList eqsC7 dC7 := by
      rw [simularFlujos_eq_iterate]
      show (fun dc => runList eqsC7 dc)^[1] dC7 = runList eqsC7 dC7
      rw [Function.iterate_one]
    have hv1 : (runList eqsC7 dC7).val 1 = ⟨1, "", 0, 0, 0⟩ := by
      simp [runList, eqsC7, dC7, Equipo.calcular, Equipo.calcularCelda, FlujosDict.set,
        Flujo.actualizar_contenido_fino, Flujo.actualizar_ley]
    have hv2 : (runList eqsC7 dC7).val 2 = ⟨2, "", 0, 0, 0⟩ := by
      simp [runList, eqsC7, dC7, Equipo.calcular, Equipo.calcularCelda, FlujosDict.set,
        Flujo.actualizar_contenido_fino, Flujo.actualizar_ley]
    have hv3 : (runList eqsC7 dC7).val 3 = ⟨3, "", 0, 0, 0⟩ := by
      simp [runList, eqsC7, dC7, Equipo.calcular, Equipo.calcularCelda, FlujosDict.set,
        Flujo.actualizar_contenido_fino, Flujo.actualizar_ley]
    have hfl : (Simulador.mk simC7.equipos (applyAlim [] simC7.flujos) simC7.flujos_relave
        simC7.iteraciones_convergencia).simular.flujos = [(1, 0, 0), (2, 0, 0), (3, 0, 0)] := by
      show ((Simulador.mk simC7.equipos (applyAlim [] simC7.flujos) simC7.flujos_relave
          simC7.iteraciones_convergencia).simularFlujos).keys.map
          (fun k => (k,
            ((Simulador.mk simC7.equipos (applyAlim [] simC7.flujos) simC7.flujos_relave
              simC7.iteraciones_convergencia).simularFlujos.val k).masa,
            ((Simulador.mk simC7.equipos (applyAlim [] simC7.flujos) simC7.flujos_relave
              simC7.iteraciones_convergencia).simularFlujos.val k).ley)) = _
      rw [hD]
      have hk : (runList eqsC7 dC7).keys = [1, 2, 3] := by
        rw [runList_keys]
        rfl
      rw [hk]
      simp [hv1, hv2, hv3]
    have hall : ((Simulador.mk simC7.equipos (applyAlim [] simC7.flujos) simC7.flujos_relave
        simC7.iteraciones_convergencia).simular.flujos.all (fun t => t.2.2 < 36)) = true := by
      rw [hfl]
      refine all_leyes_de _ ?_
      intro t ht
      fin_cases ht <;> norm_num
    obtain ⟨f, hf⟩ : ∃ f, mcTrial simC7 cfgC7 [] rngC7 0 0 = .ok (some f, 0) :=
      ⟨_, by rw [mcTrial_eq_of_sample hs, hall, if_pos rfl]⟩
    have haux : mcAux simC7 cfgC7 [] rngC7 (List.range 1) 0 = .ok ([f], 0) := by
      rw [rango_uno]
      unfold mcAux
      rw [hf]
      rfl
    have hmc : simC7.simular_montecarlo cfgC7 [] rngC7 = .ok [f] := by
      show (mcAux simC7 cfgC7 [] rngC7 (List.range 1) 0).bind
        (fun p => aplicarFiltros none none p.1) = .ok [f]
      rw [haux]
      rfl
    rw [hmc]
    rfl

/-- C7 (amended): a Monte Carlo target node name that is not present in the
circuit is silently skipped: the run behaves exactly as if the unknown names
had been removed from the target list — no error is raised for them. -/
theorem montecarlo_omite_objetivos_desconocidos (sim : Simulador)
    (cfg : ConfiguracionMC) (alim : List (Int × ℚ × ℚ)) (rng : Nat → ℚ) :
    sim.simular_montecarlo
      { cfg with equipos_objetivo :=
          cfg.equipos_objetivo.filter (fun nm => contieneEquipo sim.equipos nm) }
      alim rng
      = sim.simular_montecarlo cfg alim rng := by
  simp only [Simulador.simular_montecarlo]
  rw [mcAux_filter sim cfg alim rng (List.range cfg.n_iteraciones) 0]

/-! ### Claim C8 -/

/-- C8: with the grade sanity ceiling 36, a trial whose solved state contains
a flow with grade above 36 contributes no row and raises nothing, and every
row of the returned table comes from a trial in which every flow grade
passed the `< 36` check. -/
theorem montecarlo_rechaza_leyes (sim : Simulador) (cfg : ConfiguracionMC)
    (alim : List (Int × ℚ × ℚ)) (rng : Nat → ℚ) (i k : Nat)
    (eqs2 : List Equipo) (si : List (String × ℚ)) (k1 : Nat) (rows : List Fila) :
    (sampleSplits cfg.rangos rng sim.equipos cfg.equipos_objetivo [] k
        = .ok (eqs2, si, k1) →
      (∃ t ∈ (Simulador.mk eqs2 (applyAlim alim sim.flujos) sim.flujos_relave
          sim.iteraciones_convergencia).simular.flujos, 36 < t.2.2) →
      mcTrial sim cfg alim rng i k = .ok (none, k1))
    ∧ (sim.simular_montecarlo cfg alim rng = .ok rows →
      ∀ fila ∈ rows, ∀ t ∈ fila.flujos, t.2.2 < 36) := by
  constructor
  · intro hs hex
    obtain ⟨t, ht, h36⟩ := hex
    exact mcTrial_rechaza hs (all_leyes_contra ht (lt_asymm h36))
  · intro h fila hf t ht
    unfold Simulador.simular_montecarlo at h
    cases ha : mcAux sim cfg alim rng (List.range cfg.n_iteraciones) 0 with
    | error e =>
      rw [ha] at h
      exact absurd h (by simp [Except.bind])
    | ok p =>
      rcases p with ⟨rs, k2⟩
      rw [ha] at h
      simp only [Except.bind] at h
      exact mcAux_leyes sim cfg alim rng _ 0 rs k2 ha fila
        (aplicarFiltros_mem h fila hf) t ht

/-- C8 (witness): a trial whose feed enters at grade 50 is rejected by the
ceiling check, yields no row and no error, and the returned table (empty
here) vacuously satisfies the per-row bound. -/
theorem montecarlo_rechaza_leyes_witness :
    (sampleSplits cfgC8.rangos rngC8 simC8.equipos cfgC8.equipos_objetivo [] 0
        = .ok (simC8.equipos, [], 0))
    ∧ (∃ t ∈ (Simulador.mk simC8.equipos (applyAlim alimC8 simC8.flujos)
        simC8.flujos_relave simC8.iteraciones_convergencia).simular.flujos, 36 < t.2.2)
    ∧ mcTrial simC8 cfgC8 alimC8 rngC8 0 0 = .ok (none, 0)
    ∧ simC8.simular_montecarlo cfgC8 alimC8 rngC8 = .ok []
    ∧ (∀ fila ∈ ([] : List Fila), ∀ t ∈ fila.flujos, t.2.2 < 36) := by
  have h := montecarlo_rechaza_leyes simC8 cfgC8 alimC8 rngC8 0 0 simC8.equipos [] 0 []
  have hsample : sampleSplits cfgC8.rangos rngC8 simC8.equipos cfgC8.equipos_objetivo [] 0
      = .ok (simC8.equipos, [], 0) := rfl
  have hD : (Simulador.mk simC8.equipos (applyAlim alimC8 simC8.flujos) simC8.flujos_relave
      simC8.iteraciones_convergencia).simularFlujos
      = runList eqsC8 (applyAlim alimC8 dC8) := by
    rw [simularFlujos_eq_iterate]
    show (fun dc => runList eqsC8 dc)^[1] (applyAlim alimC8 dC8)
        = runList eqsC8 (applyAlim alimC8 dC8)
    rw [Function.iterate_one]
  have hv1 : (runList eqsC8 (applyAlim alimC8 dC8)).val 1 = ⟨1, "", 100, 50, 50⟩ := by
    simp [runList, eqsC8, dC8, applyAlim, alimC8, Equipo.calcular, Equipo.calcularCelda,
      FlujosDict.set, Flujo.actualizar_contenido_fino, Flujo.actualizar_ley]
  have hex : ∃ t ∈ (Simulador.mk simC8.equipos (applyAlim alimC8 simC8.flujos)
      simC8.flujos_relave simC8.iteraciones_convergencia).simular.flujos, 36 < t.2.2 := by
    refine ⟨((1 : Int), (100 : ℚ), (50 : ℚ)), ?_, by norm_num⟩
    show _ ∈ ((Simulador.mk simC8.equipos (applyAlim alimC8 simC8.flujos) simC8.flujos_relave
        simC8.iteraciones_convergencia).simularFlujos).keys.map
        (fun k => (k,
          ((Simulador.mk simC8.equipos (applyAlim alimC8 simC8.flujos) simC8.flujos_relave
            simC8.iteraciones_convergencia).simularFlujos.val k).masa,
          ((Simulador.mk simC8.equipos (applyAlim alimC8 simC8.flujos) simC8.flujos_relave
            simC8.iteraciones_convergencia).simularFlujos.val k).ley))
    rw [hD]
    have hk : (runList eqsC8 (applyAlim alimC8 dC8)).keys = [1, 2, 3] := by
      rw [runList_keys]
      rfl
    rw [hk]
    refine List.mem_map.mpr ⟨1, by simp, ?_⟩
    rw [hv1]
  have hnone : mcTrial simC8 cfgC8 alimC8 rngC8 0 0 = .ok (none, 0) := h.1 hsample hex
  have hmc : simC8.simular_montecarlo cfgC8 alimC8 rngC8 = .ok [] := by
    show (mcAux simC8 cfgC8 alimC8 rngC8 (List.range 1) 0).bind
      (fun p => aplicarFiltros none none p.1) = .ok []
    rw [rango_uno]
    unfold mcAux
    rw [hnone]
    rfl
  exact ⟨hsample, hex, hnone, hmc, h.2 hmc⟩

/-! ### Claim C9 -/

/-- C9: with a grade filter configured (`ley_min` set) and every trial
discarded by the sanity check, `simular_montecarlo` does not return a table:
the pandas column selection on the empty, column-less frame raises
`KeyError`, which propagates to the caller — contradicting the claim that a
table is always returned and that total discard never escapes as an
exception. -/
theorem montecarlo_filtro_vacio_falla :
    simC9.simular_montecarlo cfgC9 alimC9 rngC9 = .error "KeyError: ley_concentrado" := by
  have hs : sampleSplits cfgC9.rangos rngC9 simC9.equipos cfgC9.equipos_objetivo [] 0
      = .ok (simC9.equipos, [], 0) := rfl
  have hD : (Simulador.mk simC9.equipos (applyAlim alimC9 simC9.flujos) simC9.flujos_relave
      simC9.iteraciones_convergencia).simularFlujos
      = runList eqsC9 (applyAlim alimC9 dC9) := by
    rw [simularFlujos_eq_iterate]
    show (fun dc => runList eqsC9 dc)^[1] (applyAlim alimC9 dC9)
        = runList eqsC9 (applyAlim alimC9 dC9)
    rw [Function.iterate_one]
  have hv1 : (runList eqsC9 (applyAlim alimC9 dC9)).val 1 = ⟨1, "", 100, 50, 50⟩ := by
    simp [runList, eqsC9, dC9, applyAlim, alimC9, Equipo.calcular, Equipo.calcularCelda,
      FlujosDict.set, Flujo.actualizar_contenido_fino, Flujo.actualizar_ley]
  have hmem : ((1 : Int), (100 : ℚ), (50 : ℚ)) ∈ (Simulador.mk simC9.equipos
      (applyAlim alimC9 simC9.flujos) simC9.flujos_relave
      simC9.iteraciones_convergencia).simular.flujos := by
    show _ ∈ ((Simulador.mk simC9.equipos (applyAlim alimC9 simC9.flujos) simC9.flujos_relave
        simC9.iteraciones_convergencia).simularFlujos).keys.map
        (fun k => (k,
          ((Simulador.mk simC9.equipos (applyAlim alimC9 simC9.flujos) simC9.flujos_relave
            simC9.iteraciones_convergencia).simularFlujos.val k).masa,
          ((Simulador.mk simC9.equipos (applyAlim alimC9 simC9.flujos) simC9.flujos_relave
            simC9.iteraciones_convergencia).simularFlujos.val k).ley))
    rw [hD]
    have hk : (runList eqsC9 (applyAlim alimC9 dC9)).keys = [1, 2, 3] := by
      rw [runList_keys]
      rfl
    rw [hk]
    refine List.mem_map.mpr ⟨1, by simp, ?_⟩
    rw [hv1]
  have hall : ((Simulador.mk simC9.equipos (applyAlim alimC9 simC9.flujos) simC9.flujos_relave
      simC9.iteraciones_convergencia).simular.flujos.all (fun t => t.2.2 < 36)) = false :=
    all_leyes_contra hmem (by norm_num)
  have hnone : mcTrial simC9 cfgC9 alimC9 rngC9 0 0 = .ok (none, 0) :=
    mcTrial_rechaza hs hall
  show (mcAux simC9 cfgC9 alimC9 rngC9 (List.range 1) 0).bind
    (fun p => aplicarFiltros (some 20) none p.1) = .error "KeyError: ley_concentrado"
  rw [rango_uno]
  unfold mcAux
  rw [hnone]
  rfl
